import Mathlib

/-!
Verification of the PSP-Music-Grabber download/cache/metadata pipeline
(src/app.py) against its natural-language specification.

The Python functions are shallowly embedded as pure Lean functions.
Fallible external steps (HTTP, yt-dlp, the filesystem, image decoding)
are modelled by explicit environment records whose fields say what each
external call would do; Python truthiness of optional strings (None and
the empty string are both falsy) is modelled by the helper truthyS.
Python dicts are modelled by structures holding exactly the keys the
code reads; an absent or empty dict is identified with none.
-/

namespace PSPMG

/-! ## Python string primitives -/

/-- Python whitespace characters recognised by str.split and str.strip
(ASCII subset; the source strings are filenames and tags). -/
def pyIsSpace (c : Char) : Bool :=
  c == ' ' || c == '\t' || c == '\n' || c == '\r' || c == '\x0b' || c == '\x0c'

/-- Python str.isalnum, restricted to ASCII alphanumerics. -/
def pyIsAlnum (c : Char) : Bool := c.isAlphanum

/-- Characters kept by sanitize_filename: alphanumerics, space, hyphen, underscore. -/
def keepChar (c : Char) : Bool := pyIsAlnum c || c == ' ' || c == '-' || c == '_'

/-- Helper for Python str.split with no argument: split at every whitespace
character, producing possibly-empty chunks (empties are filtered out by
pySplit, which matches Python treating whitespace runs as one separator). -/
def splitW : List Char → List (List Char)
  | [] => [[]]
  | c :: cs =>
    if pyIsSpace c then [] :: splitW cs
    else
      match splitW cs with
      | [] => [[c]]
      | w :: ws => (c :: w) :: ws

/-- Python str.split with no argument. -/
def pySplit (s : List Char) : List (List Char) :=
  (splitW s).filter (fun w => w ≠ [])

/-- Python sep.join over character lists. -/
def pyJoinL (sep : List Char) : List (List Char) → List Char
  | [] => []
  | [w] => w
  | w :: ws => w ++ sep ++ pyJoinL sep ws

/-- Python str.lstrip with no argument. -/
def pyLStrip (s : List Char) : List Char := s.dropWhile pyIsSpace

/-- Python str.rstrip with no argument. -/
def pyRStrip (s : List Char) : List Char := (s.reverse.dropWhile pyIsSpace).reverse

/-- Python str.strip with no argument. -/
def pyStrip (s : List Char) : List Char := pyRStrip (pyLStrip s)

/-- Python sep.join over strings. -/
def pyJoinStr (sep : String) : List String → String
  | [] => ""
  | [s] => s
  | s :: rest => s ++ sep ++ pyJoinStr sep rest

/-- Python truthiness of an optional string: None and the empty string are falsy. -/
def truthyS : Option String → Bool
  | none => false
  | some s => s ≠ ""

/-- Python `a or b` on optional strings: b when a is falsy, else a. -/
def pyOr (a b : Option String) : Option String :=
  if truthyS a then a else b

/-- A yt-dlp info field that may hold a single string or a list of strings. -/
inductive PyStrs where
  | str (s : String)
  | list (xs : List String)
deriving DecidableEq

/-- Python truthiness of an optional string-or-list value. -/
def truthyPS : Option PyStrs → Bool
  | none => false
  | some (.str s) => s ≠ ""
  | some (.list xs) => xs ≠ []

/-- Python `a or b` on optional string-or-list values. -/
def pyOrPS (a b : Option PyStrs) : Option PyStrs :=
  if truthyPS a then a else b

/-! ## sanitize_filename and make_filename (src/app.py lines 75-92) -/

/-- Body of sanitize_filename on character lists:
if not name: return ""; strip; collapse whitespace with " ".join(split());
keep only alphanumerics, space, hyphen, underscore; rstrip. -/
def sanitizeL (s : List Char) : List Char :=
  if s = [] then []
  else pyRStrip ((pyJoinL [' '] (pySplit (pyStrip s))).filter keepChar)

/-- sanitize_filename from src/app.py. -/
def sanitize_filename (s : String) : String := ⟨sanitizeL s.data⟩

/-- make_filename from src/app.py: sanitized "title - artists.mp3", with
reduced forms; the last branch returns the raw artists string (or "unknown"). -/
def make_filename (title artists : String) : String :=
  let t := if title = "" then "" else sanitize_filename title
  let a := if artists = "" then "" else sanitize_filename artists
  if a ≠ "" ∧ t ≠ "" then t ++ " - " ++ a ++ ".mp3"
  else if t ≠ "" then t ++ ".mp3"
  else (if artists ≠ "" then artists else "unknown") ++ ".mp3"

/-! ## Data model: ytmusic song records and yt-dlp info dicts -/

/-- One entry of a song record's "artists" list: either a dict (of which the
code reads the keys name, artist, browseId) or a raw string. -/
inductive Artist where
  | dict (name artist browseId : Option String)
  | str (s : String)
deriving DecidableEq

/-- The nested "videoDetails" dict (keys read: title, author, thumbnail). -/
structure VideoDetails where
  title : Option String := none
  author : Option String := none
  thumbnail : Option String := none
deriving DecidableEq

/-- One entry of the "thumbnails" list (key read: url). -/
structure Thumb where
  url : Option String := none
deriving DecidableEq

/-- The "album" field of a song record: a dict (key read: name) or a string. -/
inductive AlbumVal where
  | dict (name : Option String)
  | str (s : String)
deriving DecidableEq

/-- A ytmusic.get_song record, restricted to the keys the code reads.
An absent or empty (falsy) dict is identified with none at use sites. -/
structure SongDetails where
  title : Option String := none
  artists : Option (List Artist) := none
  videoDetails : Option VideoDetails := none
  thumbnails : Option (List Thumb) := none
  album : Option AlbumVal := none
  year : Option String := none

/-- A yt-dlp extract_info result, restricted to the keys the code reads.
The artist-like fields may each hold a single string or a list of strings. -/
structure YdlMeta where
  title : Option String := none
  artist : Option PyStrs := none
  uploader : Option PyStrs := none
  uploader_id : Option PyStrs := none
  creator : Option PyStrs := none
  channel : Option PyStrs := none
  channel_id : Option PyStrs := none
  thumbnail : Option String := none
  album : Option String := none
  release : Option String := none
  upload_date : Option String := none

/-- Python truthiness of a yt-dlp info dict over the modelled keys:
a dict with no modelled key present is identified with an empty (falsy) dict. -/
def ydlTruthy : Option YdlMeta → Bool
  | none => false
  | some m =>
    m.title.isSome || m.artist.isSome || m.uploader.isSome || m.uploader_id.isSome ||
    m.creator.isSome || m.channel.isSome || m.channel_id.isSome || m.thumbnail.isSome ||
    m.album.isSome || m.release.isSome || m.upload_date.isSome

/-- Behaviour of the yt-dlp metadata-only call (extract_info with
download=False) made by resolve_title_and_artists: either it raises, or it
returns the given info dict. -/
structure YdlEnv where
  raises : Bool
  info : YdlMeta

/-! ## resolve_title_and_artists (src/app.py lines 311-371) -/

/-- Primary title extraction: song_details.get("title") or
(song_details.get("videoDetails") or empty).get("title"). -/
def extractPrimaryTitle (sd : SongDetails) : Option String :=
  pyOr sd.title (sd.videoDetails.bind VideoDetails.title)

/-- The artists collected by the loop over song_details' artists list:
a dict entry contributes its name key when truthy (the artist and browseId
keys are not consulted here), a raw entry contributes str(a) as-is. -/
def extractPrimaryArtists (sd : SongDetails) : List String :=
  match sd.artists with
  | some l =>
    l.filterMap (fun a =>
      match a with
      | .dict n _ _ => if truthyS n then n else none
      | .str s => some s)
  | none => []

/-- Fallback to videoDetails author when the artists loop collected nothing. -/
def authorFallback (sd : SongDetails) : List String :=
  match sd.videoDetails.bind VideoDetails.author with
  | some a => if a ≠ "" then [a] else []
  | none => []

/-- Artists obtained from the primary (ytmusic) record. -/
def primaryArtists (sd : SongDetails) : List String :=
  let l := extractPrimaryArtists sd
  if l ≠ [] then l else authorFallback sd

/-- The fallback_artist chain of the yt-dlp branch:
artist or uploader or uploader_id or creator or channel or channel_id. -/
def ydlFallbackArtist (m : YdlMeta) : Option PyStrs :=
  pyOrPS m.artist (pyOrPS m.uploader (pyOrPS m.uploader_id
    (pyOrPS m.creator (pyOrPS m.channel m.channel_id))))

/-- Applying the fallback_artist value: a truthy list keeps its truthy
elements, a truthy string becomes a singleton, a falsy value keeps the
current artists. -/
def applyFallbackArtist (fa : Option PyStrs) (cur : List String) : List String :=
  if truthyPS fa then
    match fa with
    | some (.list xs) => xs.filter (fun x => x ≠ "")
    | some (.str s) => [s]
    | none => cur
  else cur

/-- Title after the primary (ytmusic) step: stays missing when song_details
is absent (or falsy). -/
def primTitle (song_details : Option SongDetails) : Option String :=
  match song_details with
  | some sd => extractPrimaryTitle sd
  | none => none

/-- Artists after the primary (ytmusic) step: empty when song_details is
absent (or falsy). -/
def primArtistsOf (song_details : Option SongDetails) : List String :=
  match song_details with
  | some sd => primaryArtists sd
  | none => []

/-- The yt-dlp fallback step of the resolver: entered when the artists or
the title are still missing; an exception from yt-dlp is swallowed and
leaves both unchanged. -/
def resolveStep2 (title0 : Option String) (artists0 : List String)
    (env : YdlEnv) : Option String × List String :=
  if artists0 = [] ∨ ¬ truthyS title0 then
    if env.raises then (title0, artists0)
    else
      ((if truthyS title0 then title0 else env.info.title),
       applyFallbackArtist (ydlFallbackArtist env.info) artists0)
  else (title0, artists0)

/-- The ultimate fallbacks and the final join of the resolver. -/
def resolveFinish (video_id : String) (p : Option String × List String) :
    String × String :=
  let artists2 := if p.2 = [] then ["Unknown Artist"] else p.2
  ((match p.1 with
    | some s => if s = "" then video_id else s
    | none => video_id),
   pyJoinStr ", " artists2)

/-- resolve_title_and_artists from src/app.py: primary ytmusic extraction,
yt-dlp fallback when the title or the artists are still missing (any
exception there is swallowed), then the ultimate defaults, and the artists
joined with a comma and a space. -/
def resolve_title_and_artists (video_id : String) (song_details : Option SongDetails)
    (env : YdlEnv) : String × String :=
  resolveFinish video_id
    (resolveStep2 (primTitle song_details) (primArtistsOf song_details) env)

/-! ## make_psp_cover (src/app.py lines 110-145) -/

/-- An in-memory image, modelled by its pixel dimensions. -/
structure Img where
  w : Nat
  h : Nat
deriving DecidableEq

/-- PIL resize to the given fixed dimensions. -/
def Img.resizeTo (_i : Img) (w h : Nat) : Img := ⟨w, h⟩

/-- Environment of one make_psp_cover call: the HTTP GET outcome, the decode
outcome and the decoded dimensions, and the JPEG encoder (image and quality
to the encoded bytes; saving an in-memory RGB image to a buffer does not
raise, so the encoder is modelled as total). -/
structure CoverEnv where
  fetchRaises : Bool
  status : Nat
  decodeRaises : Bool
  width : Nat
  height : Nat
  save : Img → Nat → List Nat

/-- make_psp_cover from src/app.py: GET the url (any exception or a non-200
status gives none), decode (failure gives none), center-crop to a square,
resize to 150x150, encode as JPEG quality 85, and if the result exceeds
60 KiB re-encode once at quality 70 and use that regardless of its size. -/
def make_psp_cover (env : CoverEnv) : Option (List Nat) :=
  if env.fetchRaises then none
  else if env.status ≠ 200 then none
  else if env.decodeRaises then none
  else
    let img0 : Img := ⟨env.width, env.height⟩
    let img1 : Img :=
      if img0.w ≠ img0.h then
        if img0.w > img0.h then ⟨img0.h, img0.h⟩ else ⟨img0.w, img0.w⟩
      else img0
    let img2 := img1.resizeTo 150 150
    let data := env.save img2 85
    if data.length > 60 * 1024 then some (env.save img2 70) else some data

/-! ## add_metadata (src/app.py lines 148-267) -/

/-- The cover-art feature flag from src/app.py (a constant). -/
def ENABLE_COVER : Bool := true

/-- The ID3 tag contents produced by one add_metadata call: the frame values
it writes, the cover url it selects, and whether an APIC frame was added. -/
structure Id3Result where
  title : String
  artists : List PyStrs
  album : Option String
  year : Option String
  coverUrl : Option String
  coverAdded : Bool
deriving DecidableEq

/-- The videoDetails thumbnail branch of the cover-url chain:
song_info.get("videoDetails", empty).get("thumbnail"), assigned when truthy. -/
def vdThumb (sd : SongDetails) : Option String :=
  match sd.videoDetails.bind VideoDetails.thumbnail with
  | some v => if v ≠ "" then some v else none
  | none => none

/-- add_metadata from src/app.py, modelled as the tag contents it writes.
coverOf models the nested make_psp_cover call (url to optional bytes). -/
def add_metadata (stem : String) (song_info : Option SongDetails)
    (ytdlp_info : Option YdlMeta) (coverOf : String → Option (List Nat)) : Id3Result :=
  -- Title: song_info title, else ytdlp title, else the file stem
  let title0 : Option String :=
    match song_info with
    | some sd => sd.title
    | none => none
  let title1 : Option String :=
    if ¬ truthyS title0 ∧ ydlTruthy ytdlp_info = true then
      match ytdlp_info with
      | some m => m.title
      | none => title0
    else title0
  let titleF : String :=
    match title1 with
    | some s => if s = "" then stem else s
    | none => stem
  -- Artists: song_info artists loop (name or artist key), else the ytdlp
  -- artist/uploader/uploader_id chain, else "Unknown Artist"
  let al0 : List PyStrs :=
    match song_info with
    | some sd =>
      match sd.artists with
      | some l =>
        l.filterMap (fun a =>
          match a with
          | .dict n ar _ =>
            (match pyOr n ar with
             | some s => if s ≠ "" then some (PyStrs.str s) else none
             | none => none)
          | .str s => some (PyStrs.str s))
      | none => []
    | none => []
  let al1 : List PyStrs :=
    if al0 = [] ∧ ydlTruthy ytdlp_info = true then
      match ytdlp_info with
      | some m =>
        let a := pyOrPS m.artist (pyOrPS m.uploader m.uploader_id)
        if truthyPS a then [a.getD (PyStrs.str "")] else []
      | none => []
    else al0
  let al2 := if al1 = [] then [PyStrs.str "Unknown Artist"] else al1
  -- Album: song_info album (dict name or string), else ytdlp album/release
  let album0 : String :=
    match song_info with
    | some sd =>
      match sd.album with
      | some (.dict nm) => if nm.isSome then nm.getD "" else ""
      | some (.str s) => if s ≠ "" then s else ""
      | none => ""
    | none => ""
  let album1 : Option String :=
    if album0 = "" ∧ ydlTruthy ytdlp_info = true then
      match ytdlp_info with
      | some m => pyOr m.album m.release
      | none => some album0
    else some album0
  let albumF : Option String := if truthyS album1 then album1 else none
  -- Year: song_info year, else the first 4 characters of ytdlp upload_date
  let year0 : String :=
    match song_info with
    | some sd =>
      match sd.year with
      | some y => if y ≠ "" then y else ""
      | none => ""
    | none => ""
  let year1 : String :=
    if year0 = "" ∧ ydlTruthy ytdlp_info = true then
      match ytdlp_info with
      | some m =>
        match m.upload_date with
        | some ud => if ud ≠ "" ∧ 4 ≤ ud.length then ud.take 4 else ""
        | none => ""
      | none => ""
    else year0
  let yearF : Option String := if year1 ≠ "" then some year1 else none
  -- Cover url: requires a truthy ytdlp info dict; its thumbnail first, else
  -- the last entry of a nonempty song_info thumbnails list (elif: the
  -- videoDetails thumbnail is consulted only when that list test fails)
  let cover_url : Option String :=
    if ENABLE_COVER = true ∧ ydlTruthy ytdlp_info = true then
      let cu0 : Option String :=
        match ytdlp_info with
        | some m => if truthyS m.thumbnail then m.thumbnail else none
        | none => none
      if ¬ truthyS cu0 ∧ song_info.isSome then
        match song_info with
        | some sd =>
          match sd.thumbnails with
          | some ts =>
            if ts ≠ [] then
              match ts.getLast? with
              | some th => th.url
              | none => none
            else vdThumb sd
          | none => vdThumb sd
        | none => cu0
      else cu0
    else none
  let coverAdded : Bool :=
    match cover_url with
    | some u => if u ≠ "" then (coverOf u).isSome else false
    | none => false
  ⟨titleF, al2, albumF, yearF, cover_url, coverAdded⟩

/-! ## cleanup_old_files (src/app.py lines 288-308) -/

/-- One cache-directory file: its name and last-modified time in seconds. -/
structure CacheFile where
  name : String
  mtime : Int
deriving DecidableEq

/-- Result of one janitor sweep: the files whose deletion was attempted and
the files actually deleted (unlink succeeded). -/
structure SweepOut where
  attempted : List CacheFile
  deleted : List CacheFile
deriving DecidableEq

/-- cleanup_old_files from src/app.py: for every mp3 file in the cache
directory, if now minus its mtime exceeds 10 minutes (600 seconds), try to
unlink it; an unlink failure is caught inside the loop, which continues
with the remaining files. -/
def cleanup_old_files (files : List CacheFile) (now : Int)
    (unlinkOk : String → Bool) : SweepOut :=
  match files with
  | [] => ⟨[], []⟩
  | f :: rest =>
    let r := cleanup_old_files rest now unlinkOk
    if now - f.mtime > 600 then
      if unlinkOk f.name then ⟨f :: r.attempted, f :: r.deleted⟩
      else ⟨f :: r.attempted, r.deleted⟩
    else ⟨r.attempted, r.deleted⟩

/-! ## download_audio (src/app.py lines 374-523) -/

/-- Environment of one download_audio call: what each external step
(filesystem, lock, yt-dlp download, polling, promotion) would do.
ydlMeta drives the resolver's metadata-only yt-dlp fallback;
raiseUnexpected injects an exception escaping the try body after the
in-progress mark was added, to model the guaranteed-release discipline
of the finally clause against arbitrary failures. -/
structure DlEnv where
  cacheDir : String
  mkdirRaises : Bool
  acquireOk : Bool
  ydlMeta : YdlEnv
  finalExists : Bool
  raiseUnexpected : Bool
  fetchRaises : Bool
  fetchInfo : Option YdlMeta
  pollFound : Option String
  prepareRaises : Bool
  preparedExists : Bool
  preparedName : String
  replaceRaises : Bool
  moveRaises : Bool

/-- Observable outcome of one download_audio call: the returned value (none
both for the logged-failure returns and when an exception propagates, with
raised telling the two apart), the lock and in-progress state after the
call for this identifier, and which external effects ran. -/
structure DlOutcome where
  result : Option String
  raised : Bool
  lockHeldAfter : Bool
  inProgressAfter : Bool
  fetched : Bool
  promoted : Bool
  tagged : Bool
deriving DecidableEq

/-- Exit of the try body of download_audio: the Except value (error means an
exception is escaping), whether the identifier is in the in-progress set at
that exit, and the effects that ran. -/
structure DlBodyOut where
  result : Except Unit (Option String)
  inProgressAtExit : Bool
  fetched : Bool
  promoted : Bool
  tagged : Bool

/-- The try body of download_audio (src/app.py lines 392-515): resolve the
canonical name, short-circuit on an existing cache file, mark in-progress,
run yt-dlp (an exception is caught and returns none), poll for the produced
mp3 with a prepare_filename last resort, promote it with os.replace falling
back to shutil.move, and tag the final file. -/
def download_audio_body (videoId : String) (songInfo : Option SongDetails)
    (env : DlEnv) (inProg0 : Bool) : DlBodyOut :=
  let rt := resolve_title_and_artists videoId songInfo env.ydlMeta
  let final_filename := make_filename rt.1 rt.2
  let final_path := env.cacheDir ++ "/" ++ final_filename
  if env.finalExists then
    ⟨.ok (some final_path), inProg0, false, false, false⟩
  else
    -- DOWNLOAD_IN_PROGRESS.add(video_id)
    if env.raiseUnexpected then ⟨.error (), true, false, false, false⟩
    else if env.fetchRaises then ⟨.ok none, true, true, false, false⟩
    else
      let mp3 : Option String :=
        match env.pollFound with
        | some p => some p
        | none =>
          match env.fetchInfo with
          | some _ =>
            if env.prepareRaises then none
            else if env.preparedExists then some env.preparedName else none
          | none => none
      match mp3 with
      | none => ⟨.ok none, true, true, false, false⟩
      | some _ =>
        if env.replaceRaises then
          if env.moveRaises then ⟨.ok none, true, true, false, false⟩
          else ⟨.ok (some final_path), true, true, true, true⟩
        else ⟨.ok (some final_path), true, true, true, true⟩

/-- download_audio from src/app.py: ensure the cache directory (failure
returns none before taking the lock), acquire the per-identifier lock with
a 30s timeout (failure returns none), then run the try body; the finally
clause discards the in-progress mark and releases the lock on every exit,
including an escaping exception. -/
def download_audio (videoId : String) (songInfo : Option SongDetails)
    (env : DlEnv) (inProg0 : Bool) : DlOutcome :=
  if env.mkdirRaises then ⟨none, false, false, inProg0, false, false, false⟩
  else if ¬ env.acquireOk then ⟨none, false, false, inProg0, false, false, false⟩
  else
    let b := download_audio_body videoId songInfo env inProg0
    -- finally: DOWNLOAD_IN_PROGRESS.discard(video_id); lock.release()
    match b.result with
    | .ok r => ⟨r, false, false, false, b.fetched, b.promoted, b.tagged⟩
    | .error _ => ⟨none, true, false, false, b.fetched, b.promoted, b.tagged⟩

/-! ## Lemmas about the Python string primitives -/

theorem splitW_ne_nil (s : List Char) : splitW s ≠ [] := by
  induction s with
  | nil => simp [splitW]
  | cons c cs ih =>
    simp only [splitW]
    split
    · simp
    · cases h : splitW cs with
      | nil => simp
      | cons w ws => simp

theorem splitW_words_nospace (s : List Char) :
    ∀ w ∈ splitW s, ∀ c ∈ w, pyIsSpace c = false := by
  induction s with
  | nil =>
    intro w hw c hc
    simp only [splitW, List.mem_singleton] at hw
    subst hw
    simp at hc
  | cons d cs ih =>
    intro w hw c hc
    simp only [splitW] at hw
    by_cases hd : pyIsSpace d
    · rw [if_pos hd] at hw
      rcases List.mem_cons.mp hw with h1 | h2
      · subst h1; simp at hc
      · exact ih w h2 c hc
    · rw [if_neg hd] at hw
      cases hsp : splitW cs with
      | nil => exact absurd hsp (splitW_ne_nil cs)
      | cons w0 ws0 =>
        rw [hsp] at hw
        rcases List.mem_cons.mp hw with h1 | h2
        · subst h1
          rcases List.mem_cons.mp hc with h3 | h4
          · subst h3; exact Bool.not_eq_true _ ▸ (by simpa using hd)
          · exact ih w0 (hsp ▸ List.mem_cons_self w0 ws0) c h4
        · exact ih w (hsp ▸ List.mem_cons_of_mem w0 h2) c hc

theorem splitW_subset (s : List Char) :
    ∀ w ∈ splitW s, ∀ c ∈ w, c ∈ s := by
  induction s with
  | nil =>
    intro w hw c hc
    simp only [splitW, List.mem_singleton] at hw
    subst hw
    simp at hc
  | cons d cs ih =>
    intro w hw c hc
    simp only [splitW] at hw
    by_cases hd : pyIsSpace d
    · rw [if_pos hd] at hw
      rcases List.mem_cons.mp hw with h1 | h2
      · subst h1; simp at hc
      · exact List.mem_cons_of_mem d (ih w h2 c hc)
    · rw [if_neg hd] at hw
      cases hsp : splitW cs with
      | nil => exact absurd hsp (splitW_ne_nil cs)
      | cons w0 ws0 =>
        rw [hsp] at hw
        rcases List.mem_cons.mp hw with h1 | h2
        · subst h1
          rcases List.mem_cons.mp hc with h3 | h4
          · subst h3; exact List.mem_cons_self c cs
          · exact List.mem_cons_of_mem d
              (ih w0 (hsp ▸ List.mem_cons_self w0 ws0) c h4)
        · exact List.mem_cons_of_mem d
            (ih w (hsp ▸ List.mem_cons_of_mem w0 h2) c hc)

theorem splitW_cons (c : Char) (cs : List Char) :
    splitW (c :: cs) =
      if pyIsSpace c then [] :: splitW cs
      else match splitW cs with | [] => [[c]] | w :: ws => (c :: w) :: ws := rfl

theorem pyJoinL_cons_cons (sep w x : List Char) (ws : List (List Char)) :
    pyJoinL sep (w :: x :: ws) = w ++ sep ++ pyJoinL sep (x :: ws) := rfl

theorem pyJoinL_two (w x : List Char) (ws : List (List Char)) :
    pyJoinL [' '] (w :: x :: ws) = w ++ ' ' :: pyJoinL [' '] (x :: ws) := by
  rw [pyJoinL_cons_cons, List.append_assoc]
  rfl

theorem splitW_append_space (w t : List Char)
    (hw : ∀ c ∈ w, pyIsSpace c = false) :
    splitW (w ++ ' ' :: t) = w :: splitW t := by
  induction w with
  | nil =>
    rw [List.nil_append, splitW_cons, if_pos (by decide)]
  | cons d w2 ih =>
    have hd : pyIsSpace d = false := hw d (List.mem_cons_self d w2)
    have hw2 : ∀ c ∈ w2, pyIsSpace c = false :=
      fun c hc => hw c (List.mem_cons_of_mem d hc)
    rw [List.cons_append, splitW_cons, if_neg (by simp [hd]), ih hw2]

theorem splitW_single (w : List Char) (hw : ∀ c ∈ w, pyIsSpace c = false) :
    splitW w = [w] := by
  induction w with
  | nil => rfl
  | cons d w2 ih =>
    have hd : pyIsSpace d = false := hw d (List.mem_cons_self d w2)
    have hw2 : ∀ c ∈ w2, pyIsSpace c = false :=
      fun c hc => hw c (List.mem_cons_of_mem d hc)
    rw [splitW_cons, if_neg (by simp [hd]), ih hw2]

theorem splitW_all_space (u : List Char) (hu : ∀ c ∈ u, pyIsSpace c = true) :
    splitW u = List.replicate (u.length + 1) [] := by
  induction u with
  | nil => rfl
  | cons d u2 ih =>
    have hd : pyIsSpace d = true := hu d (List.mem_cons_self d u2)
    have hu2 : ∀ c ∈ u2, pyIsSpace c = true :=
      fun c hc => hu c (List.mem_cons_of_mem d hc)
    rw [splitW_cons, if_pos hd, ih hu2, List.length_cons]
    simp [List.replicate_succ]

theorem splitW_append_all_space (t u : List Char)
    (hu : ∀ c ∈ u, pyIsSpace c = true) :
    splitW (t ++ u) = splitW t ++ List.replicate u.length [] := by
  induction t with
  | nil =>
    rw [List.nil_append, splitW_all_space u hu, List.replicate_succ]
    rfl
  | cons d t2 ih =>
    by_cases hd : pyIsSpace d
    · rw [List.cons_append, splitW_cons, if_pos hd, ih, splitW_cons, if_pos hd,
        List.cons_append]
    · cases hsp : splitW t2 with
      | nil => exact absurd hsp (splitW_ne_nil t2)
      | cons w0 ws0 =>
        have h2 : splitW (t2 ++ u) = w0 :: (ws0 ++ List.replicate u.length []) := by
          rw [ih, hsp]; rfl
        rw [List.cons_append, splitW_cons, if_neg hd, h2, splitW_cons, if_neg hd, hsp]
        rfl

theorem filter_replicate_nil_ne :
    ∀ n : Nat, (List.replicate n ([] : List Char)).filter (fun w => w ≠ []) = [] := by
  intro n
  induction n with
  | zero => rfl
  | succ k ih => simp only [List.replicate_succ, List.filter, ih]; rfl

theorem pySplit_append_all_space (t u : List Char)
    (hu : ∀ c ∈ u, pyIsSpace c = true) :
    pySplit (t ++ u) = pySplit t := by
  unfold pySplit
  rw [splitW_append_all_space t u hu, List.filter_append, filter_replicate_nil_ne,
    List.append_nil]

theorem pySplit_lstrip (s : List Char) : pySplit (pyLStrip s) = pySplit s := by
  unfold pyLStrip
  induction s with
  | nil => rfl
  | cons d s2 ih =>
    by_cases hd : pyIsSpace d
    · rw [List.dropWhile_cons, if_pos hd, ih]
      unfold pySplit
      simp only [splitW, hd, if_true, List.filter]
      rfl
    · rw [List.dropWhile_cons, if_neg hd]

theorem pySplit_rstrip (s : List Char) : pySplit (pyRStrip s) = pySplit s := by
  have hdecomp : pyRStrip s ++ (s.reverse.takeWhile pyIsSpace).reverse = s := by
    unfold pyRStrip
    rw [← List.reverse_append, List.takeWhile_append_dropWhile, List.reverse_reverse]
  have hu : ∀ c ∈ (s.reverse.takeWhile pyIsSpace).reverse, pyIsSpace c = true := by
    intro c hc
    exact List.mem_takeWhile_imp (List.mem_reverse.mp hc)
  calc pySplit (pyRStrip s)
      = pySplit (pyRStrip s ++ (s.reverse.takeWhile pyIsSpace).reverse) :=
        (pySplit_append_all_space _ _ hu).symm
    _ = pySplit s := by rw [hdecomp]

theorem pySplit_strip (s : List Char) : pySplit (pyStrip s) = pySplit s := by
  unfold pyStrip
  rw [pySplit_rstrip, pySplit_lstrip]

theorem pySplit_words (s : List Char) :
    ∀ w ∈ pySplit s, w ≠ [] ∧ ∀ c ∈ w, pyIsSpace c = false := by
  intro w hw
  unfold pySplit at hw
  have h1 := List.of_mem_filter hw
  have h2 := List.mem_of_mem_filter hw
  exact ⟨by simpa using h1, splitW_words_nospace s w h2⟩

theorem mem_pySplit_subset (s w : List Char) (hw : w ∈ pySplit s) :
    ∀ c ∈ w, c ∈ s :=
  splitW_subset s w (List.mem_of_mem_filter hw)

theorem pySplit_pyJoinL (ws : List (List Char))
    (h : ∀ w ∈ ws, w ≠ [] ∧ ∀ c ∈ w, pyIsSpace c = false) :
    pySplit (pyJoinL [' '] ws) = ws := by
  induction ws with
  | nil => rfl
  | cons w ws2 ih =>
    cases ws2 with
    | nil =>
      obtain ⟨hne, hns⟩ := h w (List.mem_cons_self w [])
      unfold pySplit
      rw [show pyJoinL [' '] [w] = w from rfl, splitW_single w hns, List.filter_cons,
        if_pos (by simpa using hne)]
      rfl
    | cons x ws3 =>
      obtain ⟨hne, hns⟩ := h w (List.mem_cons_self w (x :: ws3))
      have h2 : ∀ v ∈ x :: ws3, v ≠ [] ∧ ∀ c ∈ v, pyIsSpace c = false :=
        fun v hv => h v (List.mem_cons_of_mem w hv)
      have hrec : pySplit (pyJoinL [' '] (x :: ws3)) = x :: ws3 := ih h2
      unfold pySplit at hrec ⊢
      rw [pyJoinL_two, splitW_append_space w _ hns, List.filter_cons,
        if_pos (by simpa using hne), hrec]

theorem pyJoinL_ne_nil (ws : List (List Char)) (hne : ws ≠ [])
    (h : ∀ w ∈ ws, w ≠ []) : pyJoinL [' '] ws ≠ [] := by
  cases ws with
  | nil => exact absurd rfl hne
  | cons w ws2 =>
    cases ws2 with
    | nil => exact h w (List.mem_cons_self w [])
    | cons x ws3 =>
      have hw : w ≠ [] := h w (List.mem_cons_self w (x :: ws3))
      rw [pyJoinL_two]
      intro hcontra
      exact hw (List.append_eq_nil.mp hcontra).1

theorem getLast?_pyJoinL (ws : List (List Char))
    (h : ∀ w ∈ ws, w ≠ [] ∧ ∀ c ∈ w, pyIsSpace c = false) :
    ∀ c, (pyJoinL [' '] ws).getLast? = some c → pyIsSpace c = false := by
  induction ws with
  | nil => intro c hc; simp [pyJoinL] at hc
  | cons w ws2 ih =>
    intro c hc
    cases ws2 with
    | nil =>
      rw [show pyJoinL [' '] [w] = w from rfl] at hc
      exact (h w (List.mem_cons_self w [])).2 c (List.mem_of_mem_getLast? hc)
    | cons x ws3 =>
      have h2 : ∀ v ∈ x :: ws3, v ≠ [] ∧ ∀ c2 ∈ v, pyIsSpace c2 = false :=
        fun v hv => h v (List.mem_cons_of_mem w hv)
      have hJne : pyJoinL [' '] (x :: ws3) ≠ [] :=
        pyJoinL_ne_nil _ (by simp) (fun v hv => (h2 v hv).1)
      rw [pyJoinL_two, List.getLast?_append] at hc
      cases hJ : pyJoinL [' '] (x :: ws3) with
      | nil => exact absurd hJ hJne
      | cons j js =>
        rw [hJ, List.getLast?_cons_cons] at hc
        cases hg : (j :: js).getLast? with
        | none =>
          have hne2 : (j :: js).getLast?.isSome = true :=
            List.getLast?_isSome.mpr (by simp)
          rw [hg] at hne2
          simp at hne2
        | some v =>
          rw [hg] at hc
          have hvc : some v = some c := hc
          apply ih h2 c
          rw [hJ, hg, hvc]

theorem mem_pyJoinL (ws : List (List Char)) (c : Char)
    (hc : c ∈ pyJoinL [' '] ws) : c = ' ' ∨ ∃ w ∈ ws, c ∈ w := by
  induction ws with
  | nil => simp [pyJoinL] at hc
  | cons w ws2 ih =>
    cases ws2 with
    | nil =>
      right
      exact ⟨w, List.mem_cons_self w [], hc⟩
    | cons x ws3 =>
      rw [pyJoinL_two] at hc
      rcases List.mem_append.mp hc with h1 | h2
      · exact Or.inr ⟨w, List.mem_cons_self w (x :: ws3), h1⟩
      · rcases List.mem_cons.mp h2 with h3 | h4
        · exact Or.inl h3
        · rcases ih h4 with h5 | ⟨v, hv, hcv⟩
          · exact Or.inl h5
          · exact Or.inr ⟨v, List.mem_cons_of_mem w hv, hcv⟩

theorem pyRStrip_subset (l : List Char) : ∀ c ∈ pyRStrip l, c ∈ l := by
  intro c hc
  unfold pyRStrip at hc
  exact List.mem_reverse.mp
    ((List.dropWhile_sublist pyIsSpace).subset (List.mem_reverse.mp hc))

theorem pyRStrip_eq_self (s : List Char)
    (h : ∀ c, s.getLast? = some c → pyIsSpace c = false) : pyRStrip s = s := by
  unfold pyRStrip
  cases hr : s.reverse with
  | nil =>
    have : s = [] := List.reverse_eq_nil_iff.mp hr
    subst this
    rfl
  | cons c rest =>
    have hlast : s.getLast? = some c := by
      rw [← List.head?_reverse, hr]
      rfl
    have hc : pyIsSpace c = false := h c hlast
    rw [List.dropWhile_cons, hc]
    simp only [Bool.false_eq_true, if_false]
    rw [← hr, List.reverse_reverse]

/-! ## C3: sanitize_filename idempotence -/

theorem sanitizeL_chars_kept (s : List Char) :
    ∀ c ∈ sanitizeL s, keepChar c = true := by
  intro c hc
  unfold sanitizeL at hc
  split at hc
  · simp at hc
  · exact List.of_mem_filter (pyRStrip_subset _ c hc)

theorem pyIsSpace_of_kept (c : Char) (hk : keepChar c = true)
    (hs : pyIsSpace c = true) : c = ' ' := by
  unfold pyIsSpace at hs
  rcases Bool.or_eq_true_iff.mp hs with h | h6
  · rcases Bool.or_eq_true_iff.mp h with h | h5
    · rcases Bool.or_eq_true_iff.mp h with h | h4
      · rcases Bool.or_eq_true_iff.mp h with h | h3
        · rcases Bool.or_eq_true_iff.mp h with h1 | h2
          · exact eq_of_beq h1
          · rw [eq_of_beq h2] at hk; simp [keepChar, pyIsAlnum] at hk
        · rw [eq_of_beq h3] at hk; simp [keepChar, pyIsAlnum] at hk
      · rw [eq_of_beq h4] at hk; simp [keepChar, pyIsAlnum] at hk
    · rw [eq_of_beq h5] at hk; simp [keepChar, pyIsAlnum] at hk
  · rw [eq_of_beq h6] at hk; simp [keepChar, pyIsAlnum] at hk

theorem sanitizeL_of_kept (s : List Char) (h : ∀ c ∈ s, keepChar c = true) :
    sanitizeL s = pyJoinL [' '] (pySplit s) := by
  by_cases hs : s = []
  · subst hs; rfl
  · unfold sanitizeL
    rw [if_neg hs, pySplit_strip]
    have hw := pySplit_words s
    have hfilter : (pyJoinL [' '] (pySplit s)).filter keepChar =
        pyJoinL [' '] (pySplit s) := by
      apply List.filter_eq_self.mpr
      intro c hc
      rcases mem_pyJoinL _ c hc with h1 | ⟨w, hwmem, hcw⟩
      · subst h1; decide
      · exact h c (mem_pySplit_subset s w hwmem c hcw)
    rw [hfilter]
    exact pyRStrip_eq_self _ (getLast?_pyJoinL _ hw)

theorem sanitizeL_double_idem (x : List Char) :
    sanitizeL (sanitizeL (sanitizeL x)) = sanitizeL (sanitizeL x) := by
  have e2 : sanitizeL (sanitizeL x) = pyJoinL [' '] (pySplit (sanitizeL x)) :=
    sanitizeL_of_kept _ (sanitizeL_chars_kept x)
  have e3 : sanitizeL (sanitizeL (sanitizeL x)) =
      pyJoinL [' '] (pySplit (sanitizeL (sanitizeL x))) :=
    sanitizeL_of_kept _ (sanitizeL_chars_kept (sanitizeL x))
  rw [e3, e2, pySplit_pyJoinL _ (pySplit_words (sanitizeL x))]

/-- C3 counterexample: sanitize_filename is not idempotent. Removing the
disallowed character of "a ! b" leaves the two spaces around it, so the
first pass returns "a  b" while a second pass collapses them to "a b". -/
theorem sanitize_filename_not_idempotent_cex :
    sanitize_filename "a ! b" = "a  b" ∧
    sanitize_filename (sanitize_filename "a ! b") = "a b" ∧
    sanitize_filename (sanitize_filename "a ! b") ≠ sanitize_filename "a ! b" := by
  refine ⟨by decide, by decide, by decide⟩

/-- C3 amended: a single application of sanitize_filename need not be
idempotent (dropping a disallowed character can create adjacent spaces that
only the next pass collapses), but sanitization is idempotent from the
second application on: sanitize composed with itself is idempotent. -/
theorem sanitize_filename_double_idempotent (x : String) :
    sanitize_filename (sanitize_filename (sanitize_filename x)) =
      sanitize_filename (sanitize_filename x) := by
  simp only [sanitize_filename]
  exact congrArg String.mk (sanitizeL_double_idem x.data)

/-! ## String helpers -/

theorem str_append_ne_empty_left (a b : String) (h : a ≠ "") : a ++ b ≠ "" := by
  intro hab
  apply h
  have hd : (a ++ b).data = [] := by rw [hab]
  rw [String.data_append] at hd
  exact String.ext (List.append_eq_nil.mp hd).1

/-! ## C4: make_filename shape -/

/-- C4 counterexample: when the title part sanitizes to empty, make_filename
returns the raw, unsanitized artists string rather than the sanitized one. -/
theorem make_filename_unsanitized_artists_cex :
    make_filename "" "A/B" = "A/B.mp3" ∧
    sanitize_filename "A/B" = "AB" ∧
    ("A/B.mp3" : String) ≠ "AB.mp3" := by
  refine ⟨by decide, by decide, by decide⟩

/-- C4 amended: the canonical filename is sanitize(title) - sanitize(artists)
plus the mp3 extension when both parts sanitize non-empty, sanitize(title)
plus the extension when only the title part does; but when the title part is
empty the filename uses the raw (unsanitized) artists string, or "unknown"
when artists is the empty string. -/
theorem make_filename_shape (title artists : String) :
    make_filename title artists =
      if sanitize_filename artists ≠ "" ∧ sanitize_filename title ≠ "" then
        sanitize_filename title ++ " - " ++ sanitize_filename artists ++ ".mp3"
      else if sanitize_filename title ≠ "" then
        sanitize_filename title ++ ".mp3"
      else
        (if artists ≠ "" then artists else "unknown") ++ ".mp3" := by
  have ht : (if title = "" then "" else sanitize_filename title) =
      sanitize_filename title := by
    split
    · rename_i h; rw [h]; rfl
    · rfl
  have ha : (if artists = "" then "" else sanitize_filename artists) =
      sanitize_filename artists := by
    split
    · rename_i h; rw [h]; rfl
    · rfl
  simp only [make_filename, ht, ha]

/-! ## C10: make_filename stem -/

/-- C10 counterexample: when both parts sanitize to empty but the artists
string itself is non-empty, the stem is the raw artists string, not the
literal "unknown". -/
theorem make_filename_unknown_stem_cex :
    make_filename "!" "?" = "?.mp3" ∧
    sanitize_filename "!" = "" ∧
    sanitize_filename "?" = "" ∧
    ("?" : String) ≠ "unknown" := by
  refine ⟨by decide, by decide, by decide, by decide⟩

/-- C10 amended: make_filename always returns a filename with a non-empty
stem and the mp3 extension; the stem is the literal "unknown" exactly in
the branch where the title part sanitizes to empty and the artists string
is empty. -/
theorem make_filename_nonempty_stem (title artists : String) :
    ∃ stem : String, stem ≠ "" ∧ make_filename title artists = stem ++ ".mp3" ∧
      (sanitize_filename title = "" ∧ artists = "" → stem = "unknown") := by
  have ht : (if title = "" then "" else sanitize_filename title) =
      sanitize_filename title := by
    split
    · rename_i h; rw [h]; rfl
    · rfl
  have ha : (if artists = "" then "" else sanitize_filename artists) =
      sanitize_filename artists := by
    split
    · rename_i h; rw [h]; rfl
    · rfl
  simp only [make_filename, ht, ha]
  by_cases hT : sanitize_filename title = ""
  · rw [if_neg (fun h => h.2 hT), if_neg (fun h => h hT)]
    by_cases hA2 : artists = ""
    · refine ⟨"unknown", by decide, ?_, fun _ => rfl⟩
      rw [if_neg (fun h => h hA2)]
    · refine ⟨artists, hA2, ?_, fun hc => absurd hc.2 hA2⟩
      rw [if_pos hA2]
  · by_cases hA : sanitize_filename artists = ""
    · rw [if_neg (fun h => h.1 hA), if_pos hT]
      exact ⟨sanitize_filename title, hT, rfl, fun hc => absurd hc.1 hT⟩
    · rw [if_pos ⟨hA, hT⟩]
      exact ⟨sanitize_filename title ++ " - " ++ sanitize_filename artists,
        str_append_ne_empty_left _ _ (str_append_ne_empty_left _ _ hT), rfl,
        fun hc => absurd hc.1 hT⟩

/-! ## Resolver lemmas -/

theorem pyJoinStr_ne_empty (l : List String) (hne : l ≠ [])
    (h : ∀ s ∈ l, s ≠ "") : pyJoinStr ", " l ≠ "" := by
  cases l with
  | nil => exact absurd rfl hne
  | cons s rest =>
    cases rest with
    | nil => exact h s (List.mem_cons_self s [])
    | cons r t =>
      rw [show pyJoinStr ", " (s :: r :: t) = s ++ ", " ++ pyJoinStr ", " (r :: t) from rfl]
      exact str_append_ne_empty_left _ _
        (str_append_ne_empty_left _ _ (h s (List.mem_cons_self s (r :: t))))

theorem mem_extractPrimaryArtists_ne (sd : SongDetails)
    (hraw : ∀ a ∈ sd.artists.getD [], ∀ s, a = Artist.str s → s ≠ "") :
    ∀ x ∈ extractPrimaryArtists sd, x ≠ "" := by
  intro x hx
  unfold extractPrimaryArtists at hx
  cases h : sd.artists with
  | none => rw [h] at hx; simp at hx
  | some l =>
    rw [h] at hx
    rcases List.mem_filterMap.mp hx with ⟨a, ha, hfa⟩
    cases a with
    | dict n ar b =>
      simp only at hfa
      split at hfa
      · rename_i htr
        rw [hfa] at htr
        simpa [truthyS] using htr
      · exact absurd hfa (by simp)
    | str s =>
      have hsx : s = x := by simpa using hfa
      subst hsx
      refine hraw (Artist.str s) ?_ s rfl
      rw [h]
      simpa using ha

theorem mem_authorFallback_ne (sd : SongDetails) :
    ∀ x ∈ authorFallback sd, x ≠ "" := by
  intro x hx
  unfold authorFallback at hx
  split at hx
  · rename_i a _
    split at hx
    · rename_i hne
      have hxa : x = a := by simpa using hx
      subst hxa
      exact hne
    · simp at hx
  · simp at hx

theorem mem_primaryArtists_ne (sd : SongDetails)
    (hraw : ∀ a ∈ sd.artists.getD [], ∀ s, a = Artist.str s → s ≠ "") :
    ∀ x ∈ primaryArtists sd, x ≠ "" := by
  intro x hx
  simp only [primaryArtists] at hx
  split at hx
  · exact mem_extractPrimaryArtists_ne sd hraw x hx
  · exact mem_authorFallback_ne sd x hx

theorem mem_applyFallbackArtist_ne (fa : Option PyStrs) (cur : List String)
    (hcur : ∀ x ∈ cur, x ≠ "") :
    ∀ x ∈ applyFallbackArtist fa cur, x ≠ "" := by
  intro x hx
  unfold applyFallbackArtist at hx
  split at hx
  · rename_i htr
    match fa, htr with
    | some (.list xs), _ =>
      simp only at hx
      have := List.of_mem_filter hx
      simpa using this
    | some (.str s), htr =>
      rw [show x ∈ [s] ↔ x = s from List.mem_singleton] at hx
      subst hx
      simpa [truthyPS] using htr
    | none, htr => simp [truthyPS] at htr
  · exact hcur x hx

theorem mem_primArtistsOf_ne (sd? : Option SongDetails)
    (hraw : ∀ sd, sd? = some sd →
      ∀ a ∈ sd.artists.getD [], ∀ s, a = Artist.str s → s ≠ "") :
    ∀ x ∈ primArtistsOf sd?, x ≠ "" := by
  intro x hx
  unfold primArtistsOf at hx
  cases h : sd? with
  | none => rw [h] at hx; simp at hx
  | some sd =>
    rw [h] at hx
    exact mem_primaryArtists_ne sd (hraw sd h) x hx

theorem mem_resolveStep2_ne (t0 : Option String) (a0 : List String) (env : YdlEnv)
    (h0 : ∀ x ∈ a0, x ≠ "") :
    ∀ x ∈ (resolveStep2 t0 a0 env).2, x ≠ "" := by
  intro x hx
  unfold resolveStep2 at hx
  split at hx
  · split at hx
    · exact h0 x hx
    · exact mem_applyFallbackArtist_ne _ _ h0 x hx
  · exact h0 x hx

theorem resolveFinish_ne (vid : String) (p : Option String × List String)
    (hvid : vid ≠ "") (hp : ∀ x ∈ p.2, x ≠ "") :
    (resolveFinish vid p).1 ≠ "" ∧ (resolveFinish vid p).2 ≠ "" := by
  unfold resolveFinish
  constructor
  · cases ht : p.1 with
    | none => simpa using hvid
    | some s =>
      simp only
      split
      · exact hvid
      · rename_i hne; exact hne
  · simp only
    split
    · exact pyJoinStr_ne_empty _ (by simp) (by intro s hs; simp at hs; subst hs; decide)
    · rename_i hne
      exact pyJoinStr_ne_empty _ hne hp

/-! ## C2: resolver total fallback coverage -/

/-- C2 counterexample: with an empty identifier and a primary record whose
artists list holds one raw empty string, the resolver returns an empty
title and an empty artists string (the raw entry is kept as-is, so the
Unknown Artist fallback is not reached, and the title default is the raw
identifier itself). -/
theorem resolve_empty_components_cex :
    resolve_title_and_artists ""
      (some { title := none, artists := some [Artist.str ""] })
      ⟨true, {}⟩ = ("", "") := by
  decide

/-- C2 amended: the resolver is total and, provided the identifier is
non-empty and every raw string entry of the primary record's artists list
is non-empty, it returns a non-empty title and a non-empty artists string;
when everything is missing the defaults are exactly the raw identifier and
"Unknown Artist", and multiple artists are joined with a comma and a
space. -/
theorem resolve_total_fallback (vid a1 a2 : String) (sd? : Option SongDetails)
    (env envB envJ : YdlEnv)
    (hvid : vid ≠ "")
    (hraw : ∀ sd, sd? = some sd →
      ∀ a ∈ sd.artists.getD [], ∀ s, a = Artist.str s → s ≠ "")
    (hB : envB.raises = true) :
    ((resolve_title_and_artists vid sd? env).1 ≠ "" ∧
     (resolve_title_and_artists vid sd? env).2 ≠ "") ∧
    resolve_title_and_artists vid none envB = (vid, "Unknown Artist") ∧
    (resolve_title_and_artists vid
        (some { title := some "T", artists := some [Artist.str a1, Artist.str a2] })
        envJ).2 = a1 ++ ", " ++ a2 := by
  refine ⟨?_, ?_, ?_⟩
  · unfold resolve_title_and_artists
    exact resolveFinish_ne vid _ hvid
      (mem_resolveStep2_ne _ _ env (mem_primArtistsOf_ne sd? hraw))
  · unfold resolve_title_and_artists
    rw [show primTitle none = none from rfl, show primArtistsOf none = [] from rfl]
    unfold resolveStep2
    rw [if_pos (Or.inl rfl), if_pos hB]
    simp [resolveFinish, pyJoinStr]
  · unfold resolve_title_and_artists
    have e1 : primTitle (some { title := some "T",
                                artists := some [Artist.str a1, Artist.str a2] }) =
        some "T" := rfl
    have e2 : primArtistsOf (some { title := some "T",
                                    artists := some [Artist.str a1, Artist.str a2] }) =
        primaryArtists
          { title := some "T", artists := some [Artist.str a1, Artist.str a2] } := rfl
    rw [e1, e2]
    have hart : extractPrimaryArtists
        { title := some "T", artists := some [Artist.str a1, Artist.str a2] } =
        [a1, a2] := by
      unfold extractPrimaryArtists
      simp
    have hprim : primaryArtists
        { title := some "T", artists := some [Artist.str a1, Artist.str a2] } =
        [a1, a2] := by
      simp only [primaryArtists, hart]
      simp
    rw [hprim]
    unfold resolveStep2
    rw [if_neg (by simp [truthyS])]
    simp [resolveFinish, pyJoinStr]

/-- C2 witness. -/
theorem resolve_total_fallback_witness :
    (((resolve_title_and_artists "vid9" none ⟨false, {}⟩).1 ≠ "" ∧
      (resolve_title_and_artists "vid9" none ⟨false, {}⟩).2 ≠ "") ∧
     resolve_title_and_artists "vid9" none ⟨true, {}⟩ = ("vid9", "Unknown Artist") ∧
     (resolve_title_and_artists "vid9"
        (some { title := some "T", artists := some [Artist.str "A", Artist.str "B"] })
        ⟨false, {}⟩).2 = "A" ++ ", " ++ "B") :=
  resolve_total_fallback "vid9" "A" "B" none ⟨false, {}⟩ ⟨true, {}⟩ ⟨false, {}⟩
    (by decide) (by intro sd hsd; cases hsd) rfl

/-! ## C8: primary artist extraction -/

/-- The song record used by the C8 counterexample: one structured artist
entry carrying only the artist key, and a videoDetails author. -/
def sdC8 : SongDetails :=
  { title := some "T",
    artists := some [Artist.dict none (some "X") none],
    videoDetails := some { author := some "A" } }

/-- C8 counterexample: a structured artist entry with no name key but an
artist key "X" contributes nothing in resolve_title_and_artists (the claim
says it should contribute "X"); the resolver instead falls through to the
videoDetails author "A". -/
theorem resolve_artist_key_ignored_cex :
    (resolve_title_and_artists "v" (some sdC8) ⟨true, {}⟩).2 = "A" ∧
    (resolve_title_and_artists "v" (some sdC8) ⟨true, {}⟩).2 ≠ "X" := by
  refine ⟨by decide, by decide⟩

/-- C8 amended: in resolve_title_and_artists a structured artist entry
contributes only its name key (entries carrying only artist or browseId
keys contribute nothing), raw string entries are taken as-is, and when the
collected list is empty resolution falls back to the author key of the
nested video details. -/
theorem resolve_primary_artist_extraction (x y n a : String) (envR : YdlEnv)
    (hr : envR.raises = true) (hn : n ≠ "") :
    resolve_title_and_artists "v"
        (some { title := some "T", artists := some [Artist.dict none (some x) (some y)] })
        envR = ("T", "Unknown Artist") ∧
    resolve_title_and_artists "v"
        (some { title := some "T", artists := some [Artist.dict (some n) (some x) (some y)] })
        envR = ("T", n) ∧
    resolve_title_and_artists "v"
        (some { title := some "T", artists := some [Artist.str a] })
        envR = ("T", a) ∧
    resolve_title_and_artists "v"
        (some { title := some "T", artists := some [Artist.dict none (some x) (some y)],
                videoDetails := some { author := some "A" } })
        envR = ("T", "A") := by
  refine ⟨?_, ?_, ?_, ?_⟩
  · unfold resolve_title_and_artists resolveStep2 primTitle primArtistsOf
      primaryArtists extractPrimaryArtists authorFallback extractPrimaryTitle
    rw [hr]
    simp [resolveFinish, pyOr, truthyS, pyJoinStr]
  · unfold resolve_title_and_artists resolveStep2 primTitle primArtistsOf
      primaryArtists extractPrimaryArtists authorFallback extractPrimaryTitle
    simp [resolveFinish, pyOr, truthyS, pyJoinStr, hn]
  · unfold resolve_title_and_artists resolveStep2 primTitle primArtistsOf
      primaryArtists extractPrimaryArtists authorFallback extractPrimaryTitle
    simp [resolveFinish, pyOr, truthyS, pyJoinStr]
  · unfold resolve_title_and_artists resolveStep2 primTitle primArtistsOf
      primaryArtists extractPrimaryArtists authorFallback extractPrimaryTitle
    rw [hr]
    simp [resolveFinish, pyOr, truthyS, pyJoinStr]

/-- C8 witness. -/
theorem resolve_primary_artist_extraction_witness :
    (resolve_title_and_artists "v"
        (some { title := some "T", artists := some [Artist.dict none (some "X") (some "Y")] })
        ⟨true, {}⟩ = ("T", "Unknown Artist") ∧
     resolve_title_and_artists "v"
        (some { title := some "T", artists := some [Artist.dict (some "N") (some "X") (some "Y")] })
        ⟨true, {}⟩ = ("T", "N") ∧
     resolve_title_and_artists "v"
        (some { title := some "T", artists := some [Artist.str "S"] })
        ⟨true, {}⟩ = ("T", "S") ∧
     resolve_title_and_artists "v"
        (some { title := some "T", artists := some [Artist.dict none (some "X") (some "Y")],
                videoDetails := some { author := some "A" } })
        ⟨true, {}⟩ = ("T", "A")) :=
  resolve_primary_artist_extraction "X" "Y" "N" "S" ⟨true, {}⟩ rfl
    (by decide)

/-! ## C6: make_psp_cover -/

/-- C6 confirmed: when the image downloads (HTTP 200, no exception) and
decodes, make_psp_cover returns the JPEG bytes of the 150x150 resized image
at quality 85, except that a quality-85 encoding larger than 60 KiB is
replaced by the quality-70 re-encoding, which is used regardless of its own
size; on a fetch exception, a non-200 status or a decode failure it returns
none. -/
theorem make_psp_cover_spec (env : CoverEnv)
    (h1 : env.fetchRaises = false) (h2 : env.status = 200)
    (h3 : env.decodeRaises = false) :
    (make_psp_cover env =
      some (if (env.save ⟨150, 150⟩ 85).length > 60 * 1024
            then env.save ⟨150, 150⟩ 70
            else env.save ⟨150, 150⟩ 85)) ∧
    (∀ env2 : CoverEnv,
      env2.fetchRaises = true ∨ env2.status ≠ 200 ∨ env2.decodeRaises = true →
      make_psp_cover env2 = none) := by
  constructor
  · simp only [make_psp_cover, h1, h2, h3, Img.resizeTo]
    rw [if_neg (by simp), if_neg (by simp), if_neg (by simp)]
    by_cases hgt : 60 * 1024 < (env.save ⟨150, 150⟩ 85).length
    · rw [if_pos hgt, if_pos hgt]
    · rw [if_neg hgt, if_neg hgt]
  · intro env2 h
    rcases h with h | h | h
    · simp [make_psp_cover, h]
    · simp [make_psp_cover, h]
    · simp [make_psp_cover, h]

/-- C6 witness. -/
theorem make_psp_cover_spec_witness :
    (make_psp_cover ⟨false, 200, false, 600, 400, fun _ q => [q]⟩ =
      some (if (([85] : List Nat)).length > 60 * 1024 then ([70] : List Nat)
            else [85])) ∧
    (∀ env2 : CoverEnv,
      env2.fetchRaises = true ∨ env2.status ≠ 200 ∨ env2.decodeRaises = true →
      make_psp_cover env2 = none) :=
  make_psp_cover_spec ⟨false, 200, false, 600, 400, fun _ q => [q]⟩ rfl rfl rfl

/-! ## C7: cleanup_old_files -/

theorem cleanup_attempted_eq (files : List CacheFile) (now : Int)
    (ok : String → Bool) :
    (cleanup_old_files files now ok).attempted =
      files.filter (fun f => decide (now - f.mtime > 600)) := by
  induction files with
  | nil => rfl
  | cons f rest ih =>
    by_cases h : now - f.mtime > 600
    · by_cases h2 : ok f.name
      · simp [cleanup_old_files, List.filter_cons, h, h2, ih]
      · simp [cleanup_old_files, List.filter_cons, h, h2, ih]
    · simp [cleanup_old_files, List.filter_cons, h, ih]

theorem cleanup_deleted_eq (files : List CacheFile) (now : Int)
    (ok : String → Bool) :
    (cleanup_old_files files now ok).deleted =
      files.filter (fun f => decide (now - f.mtime > 600) && ok f.name) := by
  induction files with
  | nil => rfl
  | cons f rest ih =>
    by_cases h : now - f.mtime > 600
    · by_cases h2 : ok f.name
      · simp [cleanup_old_files, List.filter_cons, h, h2, ih]
      · simp [cleanup_old_files, List.filter_cons, h, h2, ih]
    · simp [cleanup_old_files, List.filter_cons, h, ih]

/-- C7 confirmed: one sweep attempts to delete a cache file exactly when its
age (now minus mtime) exceeds 10 minutes (600 seconds), deletes it exactly
when additionally the unlink succeeds, and a deletion failure on any file
does not change which other files the sweep processes (the attempted set is
independent of the unlink outcomes). -/
theorem cleanup_old_files_ttl (files : List CacheFile) (now : Int)
    (ok ok2 : String → Bool) (f : CacheFile) (hf : f ∈ files) :
    (f ∈ (cleanup_old_files files now ok).attempted ↔ now - f.mtime > 600) ∧
    (f ∈ (cleanup_old_files files now ok).deleted ↔
      (now - f.mtime > 600 ∧ ok f.name = true)) ∧
    (cleanup_old_files files now ok).attempted =
      (cleanup_old_files files now ok2).attempted := by
  refine ⟨?_, ?_, ?_⟩
  · rw [cleanup_attempted_eq]
    constructor
    · intro h
      have := List.of_mem_filter h
      simpa using this
    · intro h
      exact List.mem_filter.mpr ⟨hf, by simpa using h⟩
  · rw [cleanup_deleted_eq]
    constructor
    · intro h
      have := List.of_mem_filter h
      simpa using this
    · intro h
      exact List.mem_filter.mpr ⟨hf, by simp [h.1, h.2]⟩
  · rw [cleanup_attempted_eq, cleanup_attempted_eq]

/-- C7 witness: with now at 660 seconds, a file last modified at time 0
(11 minutes old) is deleted and a file last modified at 360 (5 minutes old)
is not attempted. -/
theorem cleanup_old_files_ttl_witness :
    ((⟨"old", 0⟩ : CacheFile) ∈
      (cleanup_old_files [⟨"old", 0⟩, ⟨"young", 360⟩] 660 (fun _ => true)).deleted) ∧
    ¬ ((⟨"young", 360⟩ : CacheFile) ∈
      (cleanup_old_files [⟨"old", 0⟩, ⟨"young", 360⟩] 660 (fun _ => true)).attempted) := by
  constructor
  · exact ((cleanup_old_files_ttl [⟨"old", 0⟩, ⟨"young", 360⟩] 660 (fun _ => true)
      (fun _ => true) ⟨"old", 0⟩ (by decide)).2.1).mpr ⟨by decide, rfl⟩
  · intro h
    have h2 := ((cleanup_old_files_ttl [⟨"old", 0⟩, ⟨"young", 360⟩] 660 (fun _ => true)
      (fun _ => true) ⟨"young", 360⟩ (by decide)).1).mp h
    exact absurd h2 (by decide)

/-! ## C9: add_metadata cover source priority -/

/-- The song record used by the C9 counterexample and witness: resolved
metadata carrying one thumbnail with url "U". -/
def sdC9 : SongDetails := { thumbnails := some [{ url := some "U" }] }

/-- C9 counterexample: with resolved-metadata thumbnails available but no
yt-dlp info dict at all (which certainly provides no thumbnail), add_metadata
selects no cover url and attempts no cover, because the whole cover block is
guarded by the truthiness of the yt-dlp info dict. -/
theorem add_metadata_cover_requires_raw_info_cex :
    (add_metadata "s" (some sdC9) none (fun _ => some [0])).coverUrl = none ∧
    (add_metadata "s" (some sdC9) none (fun _ => some [0])).coverAdded = false := by
  refine ⟨by decide, by decide⟩

/-- C9 amended: the cover block runs only when the yt-dlp info dict is
present and truthy. In that case the url priority is: the yt-dlp thumbnail
when truthy; else, when the resolved metadata's thumbnails field is a
non-empty list, the url key of its last entry (taken even when absent, in
which case no cover is attempted — the videoDetails branch is an elif and
is then skipped); else the videoDetails thumbnail when truthy. With no
truthy yt-dlp info no cover url is ever selected. -/
theorem add_metadata_cover_priority (stem : String) (m : YdlMeta) (sd : SongDetails)
    (cov : String → Option (List Nat)) (hm : ydlTruthy (some m) = true) :
    ((add_metadata stem (some sd) (some m) cov).coverUrl =
      (if truthyS m.thumbnail then m.thumbnail
       else
         match sd.thumbnails with
         | some ts =>
           if ts ≠ [] then
             match ts.getLast? with
             | some th => th.url
             | none => none
           else vdThumb sd
         | none => vdThumb sd)) ∧
    ((add_metadata stem none (some m) cov).coverUrl =
      (if truthyS m.thumbnail then m.thumbnail else none)) ∧
    (∀ si cov2, (add_metadata stem si none cov2).coverUrl = none) := by
  refine ⟨?_, ?_, ?_⟩
  · simp only [add_metadata, ENABLE_COVER, hm]
    by_cases ht : truthyS m.thumbnail
    · rw [if_pos ht]
      simp [ht]
    · rw [if_neg ht]
      simp only [ht, Bool.false_eq_true, if_false]
      simp [truthyS]
  · simp only [add_metadata, ENABLE_COVER, hm]
    by_cases ht : truthyS m.thumbnail
    · rw [if_pos ht]
      simp [ht]
    · rw [if_neg ht]
      simp [ht]
  · intro si cov2
    simp [add_metadata, ydlTruthy]

/-- C9 witness. -/
theorem add_metadata_cover_priority_witness :
    ((add_metadata "s" (some sdC9) (some { thumbnail := some "W" })
        (fun _ => some [0])).coverUrl =
      (if truthyS (some "W" : Option String) then (some "W" : Option String)
       else
         match sdC9.thumbnails with
         | some ts =>
           if ts ≠ [] then
             match ts.getLast? with
             | some th => th.url
             | none => none
           else vdThumb sdC9
         | none => vdThumb sdC9)) ∧
    ((add_metadata "s" none (some { thumbnail := some "W" })
        (fun _ => some [0])).coverUrl =
      (if truthyS (some "W" : Option String) then (some "W" : Option String) else none)) ∧
    (∀ si cov2, (add_metadata "s" si none cov2).coverUrl = none) := by
  have h := add_metadata_cover_priority "s" { thumbnail := some "W" } sdC9
    (fun _ => some [0]) (by decide)
  exact h

/-! ## C1: guaranteed lock release in download_audio -/

/-- C1 confirmed: whenever the per-identifier lock is acquired (the cache
directory step succeeded and the bounded acquire returned true), every exit
of download_audio — cache hit, fetch failure, missing output, promote
failure, success, or an exception escaping the try body — leaves the lock
released and the identifier absent from the in-progress set, because the
finally clause discards the mark and releases the lock unconditionally. -/
theorem download_audio_guaranteed_release (videoId : String)
    (songInfo : Option SongDetails) (env : DlEnv) (inProg0 : Bool)
    (hmk : env.mkdirRaises = false) (hacq : env.acquireOk = true) :
    (download_audio videoId songInfo env inProg0).lockHeldAfter = false ∧
    (download_audio videoId songInfo env inProg0).inProgressAfter = false := by
  unfold download_audio
  rw [hmk, hacq]
  simp only [Bool.false_eq_true, if_false, not_true_eq_false]
  cases h : (download_audio_body videoId songInfo env inProg0).result with
  | ok r => simp [h]
  | error e => simp [h]

/-- Environment used by the C1 and C5 witnesses: the lock is acquired and
the canonical file already exists. -/
def dlEnvHit : DlEnv :=
  { cacheDir := "cache", mkdirRaises := false, acquireOk := true,
    ydlMeta := ⟨true, {}⟩, finalExists := true, raiseUnexpected := false,
    fetchRaises := false, fetchInfo := none, pollFound := none,
    prepareRaises := false, preparedExists := false, preparedName := "",
    replaceRaises := false, moveRaises := false }

/-- C1 witness. -/
theorem download_audio_guaranteed_release_witness :
    (download_audio "abc123" none dlEnvHit true).lockHeldAfter = false ∧
    (download_audio "abc123" none dlEnvHit true).inProgressAfter = false :=
  download_audio_guaranteed_release "abc123" none dlEnvHit true rfl rfl

/-! ## C5: cache hit short-circuit in download_audio -/

/-- C5 confirmed: when the canonical cache file exists at the check made
under the lock, download_audio returns that path at once, and the
fetch-and-transcode download, the promotion and the tag writing all do not
run (the metadata-only resolver call needed to compute the canonical name
has already happened before the check). -/
theorem download_audio_cache_hit (videoId : String)
    (songInfo : Option SongDetails) (env : DlEnv) (inProg0 : Bool)
    (hmk : env.mkdirRaises = false) (hacq : env.acquireOk = true)
    (hex : env.finalExists = true) :
    (download_audio videoId songInfo env inProg0).result =
      some (env.cacheDir ++ "/" ++
        make_filename (resolve_title_and_artists videoId songInfo env.ydlMeta).1
          (resolve_title_and_artists videoId songInfo env.ydlMeta).2) ∧
    (download_audio videoId songInfo env inProg0).fetched = false ∧
    (download_audio videoId songInfo env inProg0).promoted = false ∧
    (download_audio videoId songInfo env inProg0).tagged = false := by
  unfold download_audio download_audio_body
  rw [hmk, hacq, hex]
  simp

/-- C5 witness. -/
theorem download_audio_cache_hit_witness :
    (download_audio "abc123" none dlEnvHit false).result =
      some (dlEnvHit.cacheDir ++ "/" ++
        make_filename (resolve_title_and_artists "abc123" none dlEnvHit.ydlMeta).1
          (resolve_title_and_artists "abc123" none dlEnvHit.ydlMeta).2) ∧
    (download_audio "abc123" none dlEnvHit false).fetched = false ∧
    (download_audio "abc123" none dlEnvHit false).promoted = false ∧
    (download_audio "abc123" none dlEnvHit false).tagged = false :=
  download_audio_cache_hit "abc123" none dlEnvHit false rfl rfl rfl

end PSPMG
